import Mathlib

/-!
Verification development for the CineMatch movie recommender
(`streamlit_app.py`).

The engine parts of the program are embedded shallowly:

* pandas rows become the `Movie` structure; the catalog is a `List Movie`
  in dataframe iteration order;
* Python dicts (`user_ratings`, `genre_ratings`, `genre_counts`,
  `genre_preferences`) become association lists in insertion order, with
  `lookupA`/`insertA` reproducing `d.get`/`d[k] = v` semantics
  (assignment to an existing key keeps its position, a fresh key is
  appended at the end);
* `movies_df[movies_df['movie_id'] == id].iloc[0]` becomes
  `lookupMovie` (first row matching the id);
* float arithmetic is modelled over `ℚ`; a NaN / missing `vote_average`
  becomes `Option.none`;
* `random.choice` / `DataFrame.sample` become the nondeterministic
  outcome relation `RandomPickOutcome`;
* the Streamlit session is the `SessionState` / `Event` / `step`
  transition system, with `Reachable` describing the states the app can
  actually be in.
-/

namespace CineMatch

/-- One normalized catalog row, as produced by `load_movie_data`:
a stable numeric id, the title, the parsed genre-name list, and the
`vote_average` column renamed to `rating` (absent when the source value
is missing / NaN). -/
structure Movie where
  movie_id : Nat
  title : String
  genres : List String
  rating : Option ℚ
deriving DecidableEq

/-- Python dict lookup `d.get(k)` over an insertion-ordered association
list: first (and, for a real dict, only) binding of the key wins. -/
def lookupA {α β : Type} [DecidableEq α] : List (α × β) → α → Option β
  | [], _ => none
  | p :: rest, k => if p.1 = k then some p.2 else lookupA rest k

/-- Python dict assignment `d[k] = v`: replace the value in place when
the key is present, append a fresh binding otherwise. -/
def insertA {α β : Type} [DecidableEq α] : List (α × β) → α → β → List (α × β)
  | [], k, v => [(k, v)]
  | p :: rest, k, v => if p.1 = k then (p.1, v) :: rest else p :: insertA rest k v

/-- Embeds `movies_df[movies_df['movie_id'] == movie_id]` followed by
`.iloc[0]`: the first catalog row carrying the id, if any. -/
def lookupMovie (catalog : List Movie) (id : Nat) : Option Movie :=
  catalog.find? (fun m => m.movie_id == id)

/-- The inner loop body of `calculate_genre_preferences` (lines 45-47):
for one genre of one rated movie, add the rating to the genre's running
sum and bump the genre's count. -/
def addGenre (rating : ℚ) (st : List (String × ℚ) × List (String × ℕ)) (genre : String) :
    List (String × ℚ) × List (String × ℕ) :=
  (insertA st.1 genre (((lookupA st.1 genre).getD 0) + rating),
   insertA st.2 genre (((lookupA st.2 genre).getD 0) + 1))

/-- The outer loop body of `calculate_genre_preferences` (lines 42-47):
process one `(movie_id, rating)` entry, skipping ids absent from the
catalog. -/
def prefFold (catalog : List Movie)
    (st : List (String × ℚ) × List (String × ℕ)) (p : Nat × ℚ) :
    List (String × ℚ) × List (String × ℕ) :=
  match lookupMovie catalog p.1 with
  | some m => m.genres.foldl (addGenre p.2) st
  | none => st

/-- The `(genre_ratings, genre_counts)` pair after the loops of
`calculate_genre_preferences` have run over the whole ratings map. -/
def prefState (catalog : List Movie) (user_ratings : List (Nat × ℚ)) :
    List (String × ℚ) × List (String × ℕ) :=
  user_ratings.foldl (prefFold catalog) ([], [])

/-- Embeds `calculate_genre_preferences(movies_df, user_ratings)` (lines 40-48):
fold every rating into per-genre sums and counts, then build
`{genre: sum/count for genre in genre_ratings if genre_counts[genre] > 0}`. -/
def calculate_genre_preferences (catalog : List Movie) (user_ratings : List (Nat × ℚ)) :
    List (String × ℚ) :=
  let st := prefState catalog user_ratings
  (st.1.filter (fun p => decide (0 < (lookupA st.2 p.1).getD 0))).map
    (fun p => (p.1, p.2 / (((lookupA st.2 p.1).getD 0 : ℕ) : ℚ)))

/-- Embeds `calculate_recommendation_score(movie_genres, user_preferences,
movie_rating)` (lines 296-301), with the NaN check `pd.notna` modelled
by the `Option` on the catalog rating. -/
def calculate_recommendation_score (movie_genres : List String)
    (user_preferences : List (String × ℚ)) (movie_rating : Option ℚ) : ℚ :=
  let genre_match_score := (movie_genres.map (fun g => (lookupA user_preferences g).getD 0)).sum
  let max_possible_genre_score := (user_preferences.map Prod.snd).sum
  let genre_score :=
    if 0 < max_possible_genre_score then genre_match_score / max_possible_genre_score * 10 else 0
  let rating_score := movie_rating.getD 5
  genre_score * (3/4) + rating_score * (1/4)

/-- The genre weight of the score formula as found in the code: `0.75`. -/
def W_genre : ℚ := 3/4

/-- The rating weight of the score formula as found in the code: `0.25`. -/
def W_rating : ℚ := 1/4

/-- Restatement of the scoring rule in the words of spec §4.3, to be
compared with `calculate_recommendation_score`: a genre component (sum
of the preferences of the movie's genres over the sum of all preference
values, scaled to `[0,10]`, zero when the denominator is zero) and a
rating component (the catalog rating, neutral default `5` when absent),
combined with weights `W_genre` and `W_rating`. -/
def score_spec (genres : List String) (preferences : List (String × ℚ))
    (catalogRating : Option ℚ) : ℚ :=
  let denom := (preferences.map Prod.snd).sum
  let genre_component :=
    if 0 < denom then ((genres.map (fun g => (lookupA preferences g).getD 0)).sum / denom) * 10
    else 0
  let rating_component := catalogRating.getD 5
  genre_component * W_genre + rating_component * W_rating

/-- Line 234 / line 263 / line 313: the genres whose preference average
is strictly above the liking threshold 6, in preference-map order. -/
def preferredGenres (preferences : List (String × ℚ)) : List String :=
  (preferences.filter (fun p => decide (6 < p.2))).map Prod.fst

/-- Embeds `movies_df[movies_df['genres'].apply(lambda x: g in x)]`: catalog
entries carrying a genre, in catalog order. -/
def genreMovies (catalog : List Movie) (g : String) : List Movie :=
  catalog.filter (fun m => decide (g ∈ m.genres))

/-- Sort key used by `sort_values('rating', ascending=False)`: the
catalog rating with a missing value placed below every rating
(pandas puts NaN last). -/
def ratingKey (m : Movie) : WithBot ℚ :=
  match m.rating with
  | some r => (r : WithBot ℚ)
  | none => ⊥

/-- The Boolean comparison realising the descending-by-rating sort. -/
def byRatingDesc (a b : Movie) : Bool := decide (ratingKey b ≤ ratingKey a)

/-- Embeds `genre_movies.sort_values('rating', ascending=False).head(10)`:
the ten highest-rated entries of a list. -/
def top10ByRating (l : List Movie) : List Movie :=
  (l.mergeSort byRatingDesc).take 10

/-- The possible results of `get_random_movie` (lines 233-238).
`random.choice` over the preferred genres and `.sample(1)` over the
top-10 slice are nondeterministic, so the function is embedded as the
relation of its possible outcomes: `none` when there is no preferred
genre, `none` when the chosen preferred genre matches no catalog entry,
and otherwise any movie of the top-10-by-rating slice of the chosen
genre's catalog entries. -/
inductive RandomPickOutcome (catalog : List Movie) (preferences : List (String × ℚ)) :
    Option Movie → Prop
  | noPref : preferredGenres preferences = [] → RandomPickOutcome catalog preferences none
  | emptyPool (g : String) : g ∈ preferredGenres preferences →
      genreMovies catalog g = [] → RandomPickOutcome catalog preferences none
  | pick (g : String) (m : Movie) : g ∈ preferredGenres preferences →
      m ∈ top10ByRating (genreMovies catalog g) →
      RandomPickOutcome catalog preferences (some m)

/-- Lines 321-322: every catalog row paired with its recommendation
score under the current preferences, in catalog iteration order. -/
def scoredCatalog (catalog : List Movie) (preferences : List (String × ℚ)) :
    List (Movie × ℚ) :=
  catalog.map (fun m => (m, calculate_recommendation_score m.genres preferences m.rating))

/-- The Boolean comparison realising
`movies_with_scores.sort(key=lambda x: x[1], reverse=True)`. -/
def scoreDescLE (a b : Movie × ℚ) : Bool := decide (b.2 ≤ a.2)

/-- Lines 321-324: score every catalog entry, stable-sort descending by
score, keep the first 20 movies. -/
def topRecommendations (catalog : List Movie) (preferences : List (String × ℚ)) :
    List Movie :=
  ((((scoredCatalog catalog preferences).mergeSort scoreDescLE).take 20).map Prod.fst)

/-- The recommendation state produced by `recommended_movies_page`
(lines 303-324): `none` when the page bails out with a warning (new
user with no preferences, or no genre preference above 6), otherwise
the ranked top-20 list. -/
def recommendedResult (catalog : List Movie) (preferences : List (String × ℚ))
    (new_user : Bool) : Option (List Movie) :=
  if preferences = [] ∧ new_user = true then none
  else if preferredGenres preferences = [] then none
  else some (topRecommendations catalog preferences)

/-- Embeds `movies_df[movies_df['title'] == t]` followed by `.iloc[0]`: the
first catalog row with a title, if any. -/
def lookupByTitle (catalog : List Movie) (t : String) : Option Movie :=
  catalog.find? (fun m => m.title == t)

/-- Embeds `create_csv_data(movies_df, user_ratings)` (lines 51-58), modelled
at the level of its data rows: one `(title, rating)` row per rated
movie still present in the catalog, in ratings-map order (the CSV
header and text serialisation are plumbing outside the engine). -/
def create_csv_data (catalog : List Movie) (user_ratings : List (Nat × ℚ)) :
    List (String × ℚ) :=
  user_ratings.filterMap (fun p => (lookupMovie catalog p.1).map (fun m => (m.title, p.2)))

/-- Embeds `load_user_ratings_from_csv` (lines 61-69), modelled on parsed
`(Movie Title, Rating)` rows: resolve each title to the first catalog
row carrying it, drop unmatched titles, and build the dict
`{movie_id: rating}` row by row (a later row with the same resolved id
overwrites an earlier one, as in the Python dict comprehension). -/
def load_user_ratings_from_csv (rows : List (String × ℚ)) (catalog : List Movie) :
    List (Nat × ℚ) :=
  (rows.filterMap (fun row => (lookupByTitle catalog row.1).map (fun m => (m.movie_id, row.2)))).foldl
    (fun acc p => insertA acc p.1 p.2) []

/-- Line 16 of `load_movie_data`: the `genres` column is exactly the
list of names parsed out of the serialized genre field — nothing is
added when the parse yields zero genres. -/
def normalizedGenres (parsed : List String) : List String := parsed

/-- Line 17 of `load_movie_data`: the scalar `genre` column is the
first parsed genre, with `"Unknown"` when the parse yields none. -/
def primaryGenre (parsed : List String) : String :=
  match parsed with
  | [] => "Unknown"
  | g :: _ => g

/-! ## The session-state transition system

`st.session_state` restricted to the fields the engine claims are
about; pages and display-only fields are not modelled. -/

/-- The engine-relevant part of `st.session_state`. -/
structure SessionState where
  user_ratings : List (Nat × ℚ)
  genre_preferences : List (String × ℚ)
  user_authenticated : Bool
  new_user : Bool
  random_movie_id : Option Nat
deriving DecidableEq

/-- The defaults installed by `init_session_state` (lines 30-37). -/
def initState : SessionState :=
  { user_ratings := []
    genre_preferences := []
    user_authenticated := false
    new_user := true
    random_movie_id := none }

/-- The user interactions that mutate the modelled session fields.
Nondeterministic data (the CSV parse result, the slider values, the
random pick) travels as event payload; `ValidEvent` constrains it. -/
inductive Event
  | loginNew
  | csvImport (imported : List (Nat × ℚ))
  | submitDiscover (batch : List (Nat × ℚ))
  | rateGenreSearch (id : Nat) (r : ℚ)
  | viewRandom (pick : Option Movie)
  | submitRandomRating (id : Nat) (r : ℚ)
  | anotherRecommendation
  | backHomeRandom
  | rateRecommended (id : Nat) (r : ℚ)
  | logout

/-- The shared shape of every rating submission (Genre Search line
222-223, Random line 283-284, Recommended line 345-346): store the
rating, then recompute the preferences from scratch. -/
def rateAndRecompute (catalog : List Movie) (s : SessionState) (id : Nat) (r : ℚ) :
    SessionState :=
  let ratings := insertA s.user_ratings id r
  { s with user_ratings := ratings
           genre_preferences := calculate_genre_preferences catalog ratings }

/-- Embeds `random_recommendation_page` (lines 241-262) as a state update: an
early return when a new user has no preferences; otherwise a fresh pick
when no movie is stored, and a repick only when the stored id has
dropped out of the catalog. -/
def viewRandomUpdate (catalog : List Movie) (s : SessionState) (pick : Option Movie) :
    SessionState :=
  if s.genre_preferences = [] ∧ s.new_user = true then s
  else
    match s.random_movie_id with
    | none =>
        match pick with
        | some m => { s with random_movie_id := some m.movie_id }
        | none => s
    | some id =>
        if (lookupMovie catalog id).isSome then s
        else
          match pick with
          | some m => { s with random_movie_id := some m.movie_id }
          | none => s

/-- The effect of each event on the session state, read off the
handlers in `streamlit_app.py` (line references in each branch). -/
def step (catalog : List Movie) (s : SessionState) : Event → SessionState
  | .loginNew =>
      { s with user_authenticated := true, new_user := true,
               user_ratings := [], genre_preferences := [] }
  | .csvImport imported =>
      if imported = [] then { s with user_ratings := imported }
      else
        { s with user_ratings := imported
                 genre_preferences := calculate_genre_preferences catalog imported
                 user_authenticated := true
                 new_user := false }
  | .submitDiscover batch =>
      let ratings := batch.foldl (fun acc p => insertA acc p.1 p.2) s.user_ratings
      { s with user_ratings := ratings
               genre_preferences := calculate_genre_preferences catalog ratings }
  | .rateGenreSearch id r => rateAndRecompute catalog s id r
  | .viewRandom pick => viewRandomUpdate catalog s pick
  | .submitRandomRating id r => rateAndRecompute catalog s id r
  | .anotherRecommendation => { s with random_movie_id := none }
  | .backHomeRandom => { s with random_movie_id := none }
  | .rateRecommended id r => rateAndRecompute catalog s id r
  | .logout =>
      { s with user_authenticated := false, user_ratings := [],
               genre_preferences := [], new_user := true, random_movie_id := none }

/-- When each event can actually fire: the login page is only reachable
unauthenticated, every in-app page only authenticated; a random-page
pick payload must be a possible `get_random_movie` outcome, and a
rating on the random page targets the movie being displayed. -/
def ValidEvent (catalog : List Movie) (s : SessionState) : Event → Prop
  | .loginNew => s.user_authenticated = false
  | .csvImport _ => s.user_authenticated = false
  | .submitDiscover _ => s.user_authenticated = true
  | .rateGenreSearch _ _ => s.user_authenticated = true
  | .viewRandom pick => s.user_authenticated = true ∧
      RandomPickOutcome catalog s.genre_preferences pick
  | .submitRandomRating id _ => s.user_authenticated = true ∧ s.random_movie_id = some id
  | .anotherRecommendation => s.user_authenticated = true
  | .backHomeRandom => s.user_authenticated = true
  | .rateRecommended _ _ => s.user_authenticated = true
  | .logout => s.user_authenticated = true

/-- The session states the app can actually be in: the initial state
and everything reachable from it through valid events. -/
inductive Reachable (catalog : List Movie) : SessionState → Prop
  | init : Reachable catalog initState
  | next {s : SessionState} {e : Event} : Reachable catalog s →
      ValidEvent catalog s e → Reachable catalog (step catalog s e)

/-! ## Fixture data for the concrete witnesses -/

/-- A small concrete catalog entry used by witnesses. -/
def mAction : Movie := ⟨1, "Alpha", ["Action"], some 8⟩

/-- A second concrete catalog entry used by witnesses. -/
def mDrama : Movie := ⟨2, "Beta", ["Drama", "Action"], some 6⟩

/-- A small concrete catalog used by witnesses. -/
def catW : List Movie := [mAction, mDrama]

/-- How many times one ratings entry contributes to a genre: the
multiplicity of the genre in the looked-up movie's genre list, zero
when the movie id is absent from the catalog. -/
def genreWeight (catalog : List Movie) (g : String) (p : Nat × ℚ) : ℕ :=
  match lookupMovie catalog p.1 with
  | some m => m.genres.count g
  | none => 0

/-- The total contribution of a ratings map to a genre's running sum. -/
def genreRatingSum (catalog : List Movie) (g : String) (ratings : List (Nat × ℚ)) : ℚ :=
  (ratings.map (fun p => (genreWeight catalog g p : ℚ) * p.2)).sum

/-- The total contribution of a ratings map to a genre's count. -/
def genreRatingCount (catalog : List Movie) (g : String) (ratings : List (Nat × ℚ)) : ℕ :=
  (ratings.map (genreWeight catalog g)).sum

/-- The ratings entries whose movie exists in the catalog and carries a
genre: exactly the entries the spec says contribute to that genre. -/
def ratedWith (catalog : List Movie) (g : String) (ratings : List (Nat × ℚ)) :
    List (Nat × ℚ) :=
  ratings.filter (fun p =>
    match lookupMovie catalog p.1 with
    | some m => decide (g ∈ m.genres)
    | none => false)

/-- The session after a new-account login and one discovery rating of
the Action movie: used to exercise the random-pick state machine. -/
def s8a : SessionState := step catW (step catW initState .loginNew) (.submitDiscover [(1, 8)])

/-- The session after additionally viewing the Random page, which picks
`mAction`. -/
def s8b : SessionState := step catW s8a (.viewRandom (some mAction))

/-! ## Association-list lemmas -/

theorem lookupA_getD_nonneg {prefs : List (String × ℚ)} (h : ∀ p ∈ prefs, 0 ≤ p.2)
    (g : String) : 0 ≤ (lookupA prefs g).getD 0 := by
  induction prefs with
  | nil => simp [lookupA]
  | cons p rest ih =>
      simp only [lookupA]
      by_cases hk : p.1 = g
      · simpa [hk] using h p (List.mem_cons_self p rest)
      · simpa [hk] using ih (fun q hq => h q (List.mem_cons_of_mem p hq))

theorem sum_map_ite_eq_count (l : List String) (k : String) (v : ℚ) :
    (l.map (fun g => if k = g then v else 0)).sum = (l.count k : ℚ) * v := by
  induction l with
  | nil => simp
  | cons a rest ih =>
      by_cases hk : k = a
      · subst hk
        simp [List.count_cons, ih]
        ring
      · simp [List.count_cons, hk, Ne.symm hk, ih]

theorem sum_map_split (l : List String) (f h : String → ℚ) :
    (l.map (fun g => f g + h g)).sum = (l.map f).sum + (l.map h).sum := by
  induction l with
  | nil => simp
  | cons a t ih =>
      simp only [List.map_cons, List.sum_cons, ih]
      ring

/-- Summing the preference of each genre of a duplicate-free genre list
never exceeds the sum of all preference values, when those are
nonnegative. -/
theorem sum_lookupA_getD_le (genres : List String) (prefs : List (String × ℚ))
    (hnd : genres.Nodup) (hpos : ∀ p ∈ prefs, 0 ≤ p.2) :
    (genres.map (fun g => (lookupA prefs g).getD 0)).sum ≤ (prefs.map Prod.snd).sum := by
  induction prefs with
  | nil =>
      have : ∀ x ∈ genres.map (fun g => ((lookupA ([] : List (String × ℚ)) g).getD 0)), x = 0 := by
        intro x hx
        rcases List.mem_map.1 hx with ⟨g, -, rfl⟩
        simp [lookupA]
      simp [List.sum_eq_zero this]
  | cons p rest ih =>
      have hv : 0 ≤ p.2 := hpos p (List.mem_cons_self p rest)
      have hrest : ∀ q ∈ rest, 0 ≤ q.2 := fun q hq => hpos q (List.mem_cons_of_mem p hq)
      have hstep : (genres.map (fun g => (lookupA (p :: rest) g).getD 0)).sum ≤
          (genres.map (fun g => (if p.1 = g then p.2 else 0) + (lookupA rest g).getD 0)).sum := by
        refine List.sum_le_sum fun g _ => ?_
        by_cases hk : p.1 = g
        · subst hk
          have h0 := lookupA_getD_nonneg hrest p.1
          have h1 : lookupA (p :: rest) p.1 = some p.2 := by simp [lookupA]
          rw [if_pos rfl, h1, Option.getD_some]
          linarith
        · simp [lookupA, hk]
      have hsplit : (genres.map (fun g => (if p.1 = g then p.2 else 0) + (lookupA rest g).getD 0)).sum
          = (genres.map (fun g => if p.1 = g then p.2 else 0)).sum
            + (genres.map (fun g => (lookupA rest g).getD 0)).sum :=
        sum_map_split genres _ _
      have hcount : (genres.map (fun g => if p.1 = g then p.2 else 0)).sum ≤ p.2 := by
        rw [sum_map_ite_eq_count]
        rcases Nat.eq_zero_or_pos (genres.count p.1) with h0 | h1
        · simp [h0, hv]
        · have hle : genres.count p.1 ≤ 1 := List.nodup_iff_count_le_one.1 hnd p.1
          have : genres.count p.1 = 1 := le_antisymm hle h1
          simp [this]
      calc (genres.map (fun g => (lookupA (p :: rest) g).getD 0)).sum
          ≤ (genres.map (fun g => (if p.1 = g then p.2 else 0) + (lookupA rest g).getD 0)).sum :=
            hstep
        _ = (genres.map (fun g => if p.1 = g then p.2 else 0)).sum
            + (genres.map (fun g => (lookupA rest g).getD 0)).sum := hsplit
        _ ≤ p.2 + (rest.map Prod.snd).sum := add_le_add hcount (ih hrest)
        _ = ((p :: rest).map Prod.snd).sum := by simp

/-! ## Claims about the Recommendation Scorer (§4.3) -/

/-- C3: `calculate_recommendation_score` returns
`genre_component * W_genre + rating_component * W_rating` with
`W_genre + W_rating = 1`, where the genre component is the sum of the
preferences of the movie's genres over the sum of all preference
values scaled to `[0,10]` (zero when the denominator is zero) and the
rating component is the catalog rating or the neutral default `5` when
absent; in particular `score(genres, {}, 7.0) = W_rating * 7.0`. -/
theorem claim_C3 :
    (∀ (genres : List String) (preferences : List (String × ℚ)) (rating : Option ℚ),
        calculate_recommendation_score genres preferences rating =
          score_spec genres preferences rating)
    ∧ W_genre + W_rating = 1
    ∧ ∀ genres : List String,
        calculate_recommendation_score genres [] (some 7) = W_rating * 7 := by
  refine ⟨fun genres preferences rating => rfl, by norm_num [W_genre, W_rating], ?_⟩
  intro genres
  simp [calculate_recommendation_score, W_rating]
  ring

/-- C4 fails as stated: a genre list that repeats a genre makes the
genre component count that preference twice while the denominator
counts it once, pushing the score above 10 (here to `65/4`). -/
theorem claim_C4_counterexample :
    ¬ calculate_recommendation_score ["Action", "Action"] [("Action", 8)] none ≤ 10 := by
  norm_num [calculate_recommendation_score, lookupA]

/-- C4, amended: for every genre list without duplicate genres,
preference map with nonnegative values, and catalog rating in `[0,10]`
(or absent), the recommendation score lies in `[0,10]`. -/
theorem claim_C4_amended (genres : List String) (prefs : List (String × ℚ))
    (rating : Option ℚ) (hnd : genres.Nodup) (hpos : ∀ p ∈ prefs, 0 ≤ p.2)
    (hrat : ∀ r, rating = some r → 0 ≤ r ∧ r ≤ 10) :
    0 ≤ calculate_recommendation_score genres prefs rating
    ∧ calculate_recommendation_score genres prefs rating ≤ 10 := by
  have hmatch : 0 ≤ (genres.map (fun g => (lookupA prefs g).getD 0)).sum :=
    List.sum_nonneg (by
      intro x hx
      rcases List.mem_map.1 hx with ⟨g, -, rfl⟩
      exact lookupA_getD_nonneg hpos g)
  have hle := sum_lookupA_getD_le genres prefs hnd hpos
  have hrs : 0 ≤ rating.getD 5 ∧ rating.getD 5 ≤ 10 := by
    cases rating with
    | none => norm_num
    | some r => simpa using hrat r rfl
  unfold calculate_recommendation_score
  by_cases hden : 0 < (prefs.map Prod.snd).sum
  · have hgs0 : 0 ≤ (genres.map (fun g => (lookupA prefs g).getD 0)).sum
        / (prefs.map Prod.snd).sum * 10 :=
      mul_nonneg (div_nonneg hmatch (le_of_lt hden)) (by norm_num)
    have hgs10 : (genres.map (fun g => (lookupA prefs g).getD 0)).sum
        / (prefs.map Prod.snd).sum * 10 ≤ 10 := by
      have h1 : (genres.map (fun g => (lookupA prefs g).getD 0)).sum
          / (prefs.map Prod.snd).sum ≤ 1 := (div_le_one hden).2 hle
      linarith
    simp only [if_pos hden]
    exact ⟨by linarith [hrs.1], by linarith [hrs.2]⟩
  · simp only [if_neg hden]
    exact ⟨by linarith [hrs.1, hrs.2], by linarith [hrs.1, hrs.2]⟩

/-- Witness for the amended C4 at a concrete input. -/
theorem claim_C4_amended_witness :
    0 ≤ calculate_recommendation_score ["Action"] [("Action", 8)] (some 7)
    ∧ calculate_recommendation_score ["Action"] [("Action", 8)] (some 7) ≤ 10 :=
  claim_C4_amended ["Action"] [("Action", 8)] (some 7) (by decide)
    (by intro p hp; fin_cases hp; norm_num)
    (by intro r hr; cases hr; exact ⟨by norm_num, by norm_num⟩)

/-! ## Claims about the no-signal guard (§7, §8) -/

/-- C6: when no genre preference exceeds 6, every possible
`get_random_movie` outcome is the no-pick result `none`, and the
Recommended page produces the empty recommendation state (it never
reaches the ranking code, so it neither crashes nor returns an
unranked list). -/
theorem claim_C6 (catalog : List Movie) (prefs : List (String × ℚ)) (nu : Bool)
    (h : preferredGenres prefs = []) :
    (∀ res, RandomPickOutcome catalog prefs res → res = none)
    ∧ recommendedResult catalog prefs nu = none := by
  constructor
  · intro res hres
    cases hres with
    | noPref _ => rfl
    | emptyPool g hg _ => rfl
    | pick g m hg _ => rw [h] at hg; cases hg
  · simp [recommendedResult, h]

/-- Witness for C6: a preference map whose single average (5) does not
exceed 6. -/
theorem claim_C6_witness :
    (∀ res, RandomPickOutcome catW [("Action", 5)] res → res = none)
    ∧ recommendedResult catW [("Action", 5)] false = none :=
  ⟨(claim_C6 catW [("Action", 5)] false (by decide)).1,
   (claim_C6 catW [("Action", 5)] false (by decide)).2⟩

/-! ## Claim about the Catalog Normalizer genre placeholder (§4.1) -/

/-- C9 fails on the code: when the serialized genre field parses to
zero genres, line 16 leaves the ordered genre-list column empty —
`["Unknown"]` is not substituted into it (line 17 puts `"Unknown"` only
in the separate scalar `genre` column). -/
theorem claim_C9_counterexample : ¬ normalizedGenres [] = ["Unknown"] := by
  simp [normalizedGenres]

/-- C9, amended: for a record whose serialized genre field parses to
zero genres, the normalizer keeps the ordered genre-list field empty,
and the placeholder `"Unknown"` appears only as the separate scalar
primary-genre column. -/
theorem claim_C9_amended (parsed : List String) (h : parsed = []) :
    normalizedGenres parsed = [] ∧ primaryGenre parsed = "Unknown" := by
  subst h
  exact ⟨rfl, rfl⟩

/-- Witness for the amended C9 at the empty parse. -/
theorem claim_C9_amended_witness :
    normalizedGenres [] = [] ∧ primaryGenre [] = "Unknown" :=
  claim_C9_amended [] rfl

/-! ## Claim about the preference/ratings consistency invariant (§3) -/

/-- The random page view touches only `random_movie_id`: ratings,
preferences, authentication and the new-user flag pass through. -/
theorem viewRandomUpdate_preserves (catalog : List Movie) (s : SessionState)
    (pick : Option Movie) :
    (viewRandomUpdate catalog s pick).user_ratings = s.user_ratings
    ∧ (viewRandomUpdate catalog s pick).genre_preferences = s.genre_preferences
    ∧ (viewRandomUpdate catalog s pick).user_authenticated = s.user_authenticated := by
  unfold viewRandomUpdate
  repeat' split
  all_goals exact ⟨rfl, rfl, rfl⟩

/-- The induction invariant behind C2: the stored preferences always
equal the full recompute from the stored ratings, and on the login page
(unauthenticated) both stores are empty. -/
theorem reachable_inv (catalog : List Movie) {s : SessionState}
    (h : Reachable catalog s) :
    s.genre_preferences = calculate_genre_preferences catalog s.user_ratings
    ∧ (s.user_authenticated = false → s.user_ratings = [] ∧ s.genre_preferences = []) := by
  induction h with
  | init => exact ⟨rfl, fun _ => ⟨rfl, rfl⟩⟩
  | @next s e hr hv ih =>
      cases e with
      | loginNew =>
          refine ⟨rfl, ?_⟩
          intro hfalse
          simp [step] at hfalse
      | csvImport imported =>
          by_cases him : imported = []
          · subst him
            have hempty := ih.2 hv
            refine ⟨?_, ?_⟩
            · simp only [step, if_pos rfl]
              exact hempty.2
            · intro _
              simp only [step, if_pos rfl]
              exact ⟨rfl, hempty.2⟩
          · refine ⟨?_, ?_⟩
            · simp only [step, if_neg him]
            · intro hfalse
              simp only [step, if_neg him] at hfalse
              cases hfalse
      | submitDiscover batch =>
          refine ⟨rfl, ?_⟩
          intro hfalse
          have hv' : s.user_authenticated = true := hv
          simp only [step] at hfalse
          rw [hv'] at hfalse
          cases hfalse
      | rateGenreSearch id r =>
          refine ⟨rfl, ?_⟩
          intro hfalse
          have hv' : s.user_authenticated = true := hv
          simp only [step, rateAndRecompute] at hfalse
          rw [hv'] at hfalse
          cases hfalse
      | viewRandom pick =>
          have hp := viewRandomUpdate_preserves catalog s pick
          have hstep : step catalog s (.viewRandom pick) = viewRandomUpdate catalog s pick := rfl
          refine ⟨?_, ?_⟩
          · rw [hstep, hp.2.1, hp.1]
            exact ih.1
          · intro hfalse
            have hv' : s.user_authenticated = true := hv.1
            rw [hstep, hp.2.2, hv'] at hfalse
            cases hfalse
      | submitRandomRating id r =>
          refine ⟨rfl, ?_⟩
          intro hfalse
          have hv' : s.user_authenticated = true := hv.1
          simp only [step, rateAndRecompute] at hfalse
          rw [hv'] at hfalse
          cases hfalse
      | anotherRecommendation =>
          refine ⟨ih.1, ?_⟩
          intro hfalse
          have hv' : s.user_authenticated = true := hv
          simp only [step] at hfalse
          rw [hv'] at hfalse
          cases hfalse
      | backHomeRandom =>
          refine ⟨ih.1, ?_⟩
          intro hfalse
          have hv' : s.user_authenticated = true := hv
          simp only [step] at hfalse
          rw [hv'] at hfalse
          cases hfalse
      | rateRecommended id r =>
          refine ⟨rfl, ?_⟩
          intro hfalse
          have hv' : s.user_authenticated = true := hv
          simp only [step, rateAndRecompute] at hfalse
          rw [hv'] at hfalse
          cases hfalse
      | logout => exact ⟨rfl, fun _ => ⟨rfl, rfl⟩⟩

/-- C2: in every reachable session state — after a new-account login, a
CSV import, each rating submission on the Discover, Genre Search,
Random and Recommended pages, and logout — the stored
`genre_preferences` equal `calculate_genre_preferences` applied to the
stored `user_ratings` and the catalog. -/
theorem claim_C2 (catalog : List Movie) {s : SessionState} (h : Reachable catalog s) :
    s.genre_preferences = calculate_genre_preferences catalog s.user_ratings :=
  (reachable_inv catalog h).1

/-- Witness for C2: the concrete state reached by logging in as a new
account and submitting one discovery rating. -/
theorem claim_C2_witness :
    (step catW (step catW initState .loginNew) (.submitDiscover [(1, 8)])).genre_preferences
      = calculate_genre_preferences catW
          (step catW (step catW initState .loginNew) (.submitDiscover [(1, 8)])).user_ratings :=
  claim_C2 catW (Reachable.next (Reachable.next Reachable.init rfl) rfl)

/-! ## Claim about the Top-N ranked list (§4.4 mode 4) -/

theorem scoreDescLE_trans : ∀ a b c : Movie × ℚ,
    scoreDescLE a b → scoreDescLE b c → scoreDescLE a c := by
  intro a b c h1 h2
  simp only [scoreDescLE, decide_eq_true_eq] at h1 h2 ⊢
  exact le_trans h2 h1

theorem scoreDescLE_total : ∀ a b : Movie × ℚ, scoreDescLE a b || scoreDescLE b a := by
  intro a b
  simp only [scoreDescLE, Bool.or_eq_true, decide_eq_true_eq]
  exact le_total b.2 a.2

/-- C5: the top-N list is obtained by scoring every catalog entry with
the current preferences, sorting descending by score with ties kept in
catalog iteration order, and taking the first 20: the sorted list is
non-increasing in score, is a permutation of the scored catalog, and
agrees with the scored catalog on every equal-score class (stability);
being a pure function of its inputs, re-running it on identical inputs
yields an identical order. -/
theorem claim_C5 (catalog : List Movie) (prefs : List (String × ℚ)) :
    topRecommendations catalog prefs
      = (((scoredCatalog catalog prefs).mergeSort scoreDescLE).take 20).map Prod.fst
    ∧ ((scoredCatalog catalog prefs).mergeSort scoreDescLE).Pairwise
        (fun a b => b.2 ≤ a.2)
    ∧ ((scoredCatalog catalog prefs).mergeSort scoreDescLE).Perm
        (scoredCatalog catalog prefs)
    ∧ ∀ q : ℚ,
        ((scoredCatalog catalog prefs).mergeSort scoreDescLE).filter
            (fun p => decide (p.2 = q))
          = (scoredCatalog catalog prefs).filter (fun p => decide (p.2 = q)) := by
  refine ⟨rfl, ?_, List.mergeSort_perm _ _, ?_⟩
  · exact (List.sorted_mergeSort scoreDescLE_trans scoreDescLE_total _).imp
      (fun h => by simpa [scoreDescLE] using h)
  · intro q
    have hAsub : List.Sublist
        ((scoredCatalog catalog prefs).filter (fun p => decide (p.2 = q)))
        (scoredCatalog catalog prefs) := List.filter_sublist _
    have hAP : ∀ x ∈ (scoredCatalog catalog prefs).filter (fun p => decide (p.2 = q)),
        x.2 = q := by
      intro x hx
      simpa using (List.of_mem_filter hx)
    have hpw : ((scoredCatalog catalog prefs).filter (fun p => decide (p.2 = q))).Pairwise
        (fun a b => scoreDescLE a b) := by
      refine List.pairwise_of_forall_mem_list fun a ha b hb => ?_
      simp only [scoreDescLE, decide_eq_true_eq]
      rw [hAP a ha, hAP b hb]
    have hAms : List.Sublist
        ((scoredCatalog catalog prefs).filter (fun p => decide (p.2 = q)))
        ((scoredCatalog catalog prefs).mergeSort scoreDescLE) :=
      List.sublist_mergeSort scoreDescLE_trans scoreDescLE_total hpw hAsub
    have hAfix : ((scoredCatalog catalog prefs).filter (fun p => decide (p.2 = q))).filter
        (fun p => decide (p.2 = q))
        = (scoredCatalog catalog prefs).filter (fun p => decide (p.2 = q)) :=
      List.filter_eq_self.mpr (fun x hx => by simpa using hAP x hx)
    have hsubB : List.Sublist
        ((scoredCatalog catalog prefs).filter (fun p => decide (p.2 = q)))
        (((scoredCatalog catalog prefs).mergeSort scoreDescLE).filter
            (fun p => decide (p.2 = q))) := by
      rw [← hAfix]
      exact hAms.filter _
    have hperm : List.Perm
        (((scoredCatalog catalog prefs).mergeSort scoreDescLE).filter
          (fun p => decide (p.2 = q)))
        ((scoredCatalog catalog prefs).filter (fun p => decide (p.2 = q))) :=
      (List.mergeSort_perm _ _).filter _
    exact (hsubB.eq_of_length hperm.length_eq.symm).symm

/-! ## Claim about the Preference Aggregator (§4.2)

The loop of `calculate_genre_preferences` is characterised genre by
genre: after the fold, a genre's running sum and count are the
multiplicity-weighted sum and count of its occurrences over the rated
movies still present in the catalog. -/

theorem lookupA_insertA_self {α β : Type} [DecidableEq α] (l : List (α × β)) (k : α) (v : β) :
    lookupA (insertA l k v) k = some v := by
  induction l with
  | nil => simp [insertA, lookupA]
  | cons p rest ih =>
      by_cases h : p.1 = k
      · simp [insertA, lookupA, h]
      · simp [insertA, lookupA, h, ih]

theorem lookupA_insertA_ne {α β : Type} [DecidableEq α] (l : List (α × β)) {k k' : α}
    (v : β) (h : k' ≠ k) : lookupA (insertA l k v) k' = lookupA l k' := by
  induction l with
  | nil =>
      have hk : ¬ k = k' := fun he => h he.symm
      simp [insertA, lookupA, hk]
  | cons p rest ih =>
      by_cases hp : p.1 = k
      · subst hp
        have hk : ¬ p.1 = k' := fun he => h he.symm
        simp [insertA, lookupA, hk]
      · simp only [insertA, if_neg hp, lookupA]
        by_cases hp' : p.1 = k'
        · simp [hp']
        · simp [hp', ih]

theorem isSome_lookupA_of_mem {α β : Type} [DecidableEq α] {l : List (α × β)} {p : α × β}
    (h : p ∈ l) : (lookupA l p.1).isSome = true := by
  induction l with
  | nil => cases h
  | cons q rest ih =>
      rcases List.mem_cons.1 h with rfl | hmem
      · simp [lookupA]
      · by_cases hq : q.1 = p.1
        · simp [lookupA, hq]
        · simp [lookupA, hq, ih hmem]

theorem lookupA_map_value (l : List (String × ℚ)) (f : String → ℚ → ℚ) (g : String) :
    lookupA (l.map (fun p => (p.1, f p.1 p.2))) g = (lookupA l g).map (f g) := by
  induction l with
  | nil => simp [lookupA]
  | cons p rest ih =>
      by_cases h : p.1 = g
      · subst h
        simp [lookupA]
      · simp [lookupA, h, ih]

theorem foldl_addGenre_fst (r : ℚ) (gs : List String) :
    ∀ (st : List (String × ℚ) × List (String × ℕ)) (g : String),
    (lookupA (gs.foldl (addGenre r) st).1 g).getD 0
      = (lookupA st.1 g).getD 0 + (gs.count g : ℚ) * r := by
  induction gs with
  | nil => intro st g; simp
  | cons g' gs ih =>
      intro st g
      rw [List.foldl_cons, ih]
      by_cases h : g = g'
      · subst h
        rw [show (addGenre r st g).1 = insertA st.1 g ((lookupA st.1 g).getD 0 + r) from rfl,
          lookupA_insertA_self, Option.getD_some, List.count_cons_self]
        push_cast
        ring
      · rw [show (addGenre r st g').1 = insertA st.1 g' ((lookupA st.1 g').getD 0 + r) from rfl,
          lookupA_insertA_ne _ _ h, List.count_cons_of_ne h]

theorem foldl_addGenre_snd (r : ℚ) (gs : List String) :
    ∀ (st : List (String × ℚ) × List (String × ℕ)) (g : String),
    (lookupA (gs.foldl (addGenre r) st).2 g).getD 0
      = (lookupA st.2 g).getD 0 + gs.count g := by
  induction gs with
  | nil => intro st g; simp
  | cons g' gs ih =>
      intro st g
      rw [List.foldl_cons, ih]
      by_cases h : g = g'
      · subst h
        rw [show (addGenre r st g).2 = insertA st.2 g ((lookupA st.2 g).getD 0 + 1) from rfl,
          lookupA_insertA_self, Option.getD_some, List.count_cons_self]
        omega
      · rw [show (addGenre r st g').2 = insertA st.2 g' ((lookupA st.2 g').getD 0 + 1) from rfl,
          lookupA_insertA_ne _ _ h, List.count_cons_of_ne h]

theorem foldl_addGenre_fst_isSome (r : ℚ) (gs : List String) :
    ∀ (st : List (String × ℚ) × List (String × ℕ)) (g : String),
    ((lookupA (gs.foldl (addGenre r) st).1 g).isSome = true
      ↔ (lookupA st.1 g).isSome = true ∨ g ∈ gs) := by
  induction gs with
  | nil => intro st g; simp
  | cons g' gs ih =>
      intro st g
      rw [List.foldl_cons, ih]
      by_cases h : g = g'
      · subst h
        rw [show (addGenre r st g).1 = insertA st.1 g ((lookupA st.1 g).getD 0 + r) from rfl,
          lookupA_insertA_self]
        simp
      · rw [show (addGenre r st g').1 = insertA st.1 g' ((lookupA st.1 g').getD 0 + r) from rfl,
          lookupA_insertA_ne _ _ h]
        simp [List.mem_cons, h]

theorem prefFoldl_fst (catalog : List Movie) (ratings : List (Nat × ℚ)) :
    ∀ (st : List (String × ℚ) × List (String × ℕ)) (g : String),
    (lookupA (ratings.foldl (prefFold catalog) st).1 g).getD 0
      = (lookupA st.1 g).getD 0 + genreRatingSum catalog g ratings := by
  induction ratings with
  | nil => intro st g; simp [genreRatingSum]
  | cons p rest ih =>
      intro st g
      rw [List.foldl_cons, ih]
      have hsum : genreRatingSum catalog g (p :: rest)
          = (genreWeight catalog g p : ℚ) * p.2 + genreRatingSum catalog g rest := by
        simp [genreRatingSum]
      rw [hsum]
      cases hm : lookupMovie catalog p.1 with
      | none =>
          rw [show prefFold catalog st p = st from by simp [prefFold, hm]]
          simp [genreWeight, hm]
      | some m =>
          rw [show prefFold catalog st p = m.genres.foldl (addGenre p.2) st from by
            simp [prefFold, hm]]
          rw [foldl_addGenre_fst]
          simp [genreWeight, hm]
          ring

theorem prefFoldl_snd (catalog : List Movie) (ratings : List (Nat × ℚ)) :
    ∀ (st : List (String × ℚ) × List (String × ℕ)) (g : String),
    (lookupA (ratings.foldl (prefFold catalog) st).2 g).getD 0
      = (lookupA st.2 g).getD 0 + genreRatingCount catalog g ratings := by
  induction ratings with
  | nil => intro st g; simp [genreRatingCount]
  | cons p rest ih =>
      intro st g
      rw [List.foldl_cons, ih]
      have hsum : genreRatingCount catalog g (p :: rest)
          = genreWeight catalog g p + genreRatingCount catalog g rest := by
        simp [genreRatingCount]
      rw [hsum]
      cases hm : lookupMovie catalog p.1 with
      | none =>
          rw [show prefFold catalog st p = st from by simp [prefFold, hm]]
          simp [genreWeight, hm]
      | some m =>
          rw [show prefFold catalog st p = m.genres.foldl (addGenre p.2) st from by
            simp [prefFold, hm]]
          rw [foldl_addGenre_snd]
          simp [genreWeight, hm]
          omega

theorem prefFoldl_fst_isSome (catalog : List Movie) (ratings : List (Nat × ℚ)) :
    ∀ (st : List (String × ℚ) × List (String × ℕ)) (g : String),
    ((lookupA (ratings.foldl (prefFold catalog) st).1 g).isSome = true
      ↔ (lookupA st.1 g).isSome = true ∨ 0 < genreRatingCount catalog g ratings) := by
  induction ratings with
  | nil => intro st g; simp [genreRatingCount]
  | cons p rest ih =>
      intro st g
      rw [List.foldl_cons, ih]
      have hsum : genreRatingCount catalog g (p :: rest)
          = genreWeight catalog g p + genreRatingCount catalog g rest := by
        simp [genreRatingCount]
      rw [hsum]
      cases hm : lookupMovie catalog p.1 with
      | none =>
          rw [show prefFold catalog st p = st from by simp [prefFold, hm]]
          simp [genreWeight, hm]
      | some m =>
          rw [show prefFold catalog st p = m.genres.foldl (addGenre p.2) st from by
            simp [prefFold, hm]]
          rw [foldl_addGenre_fst_isSome]
          have hw : genreWeight catalog g p = m.genres.count g := by simp [genreWeight, hm]
          rw [hw]
          constructor
          · rintro ((hs | hg) | hc)
            · exact Or.inl hs
            · exact Or.inr (by
                have := List.count_pos_iff.2 hg
                omega)
            · exact Or.inr (by omega)
          · rintro (hs | hc)
            · exact Or.inl (Or.inl hs)
            · rcases Nat.lt_or_ge 0 (genreRatingCount catalog g rest) with h1 | h1
              · exact Or.inr h1
              · have hcnt : 0 < m.genres.count g := by omega
                exact Or.inl (Or.inr (List.count_pos_iff.1 hcnt))

/-- Per-genre characterisation of `calculate_genre_preferences`: a
genre is mapped to its running sum over its running count whenever it
received at least one contribution, and is absent otherwise. -/
theorem calculate_genre_preferences_lookup (catalog : List Movie)
    (ratings : List (Nat × ℚ)) (g : String) :
    lookupA (calculate_genre_preferences catalog ratings) g
      = if 0 < genreRatingCount catalog g ratings
        then some (genreRatingSum catalog g ratings
          / (genreRatingCount catalog g ratings : ℚ))
        else none := by
  have hfst := prefFoldl_fst catalog ratings ([], [])
  have hsnd := prefFoldl_snd catalog ratings ([], [])
  have hiss := prefFoldl_fst_isSome catalog ratings ([], [])
  have hbase1 : ∀ g : String, (lookupA (([], []) :
      List (String × ℚ) × List (String × ℕ)).1 g).getD 0 = 0 := fun _ => rfl
  have hfil : (prefState catalog ratings).1.filter
      (fun p => decide (0 < (lookupA (prefState catalog ratings).2 p.1).getD 0))
      = (prefState catalog ratings).1 := by
    refine List.filter_eq_self.mpr fun p hp => ?_
    have hsome := isSome_lookupA_of_mem hp
    have hpos : 0 < genreRatingCount catalog p.1 ratings := by
      rcases (hiss p.1).1 hsome with hfalse | hpos
      · simp [lookupA] at hfalse
      · exact hpos
    have : (lookupA (prefState catalog ratings).2 p.1).getD 0
        = genreRatingCount catalog p.1 ratings := by
      have := hsnd p.1
      simpa [prefState, lookupA] using this
    rw [this]
    exact decide_eq_true_eq.mpr hpos
  have hmap : calculate_genre_preferences catalog ratings
      = (prefState catalog ratings).1.map
          (fun p => (p.1, p.2
            / (((lookupA (prefState catalog ratings).2 p.1).getD 0 : ℕ) : ℚ))) := by
    rw [calculate_genre_preferences]
    rw [hfil]
  rw [hmap, lookupA_map_value (prefState catalog ratings).1
    (fun k v => v / (((lookupA (prefState catalog ratings).2 k).getD 0 : ℕ) : ℚ)) g]
  by_cases hpos : 0 < genreRatingCount catalog g ratings
  · have hsomeg : (lookupA (prefState catalog ratings).1 g).isSome = true := by
      have := (hiss g).2 (Or.inr hpos)
      simpa [prefState] using this
    rw [if_pos hpos]
    cases hv : lookupA (prefState catalog ratings).1 g with
    | none => rw [hv] at hsomeg; cases hsomeg
    | some v =>
        have hval : v = genreRatingSum catalog g ratings := by
          have := hfst g
          simp only [prefState] at hv
          rw [hv] at this
          simpa [lookupA] using this
        have hcnt : (lookupA (prefState catalog ratings).2 g).getD 0
            = genreRatingCount catalog g ratings := by
          have := hsnd g
          simpa [prefState, lookupA] using this
        simp [hval, hcnt]
  · rw [if_neg hpos]
    cases hv : lookupA (prefState catalog ratings).1 g with
    | none => rfl
    | some v =>
        exfalso
        have : (lookupA (prefState catalog ratings).1 g).isSome = true := by
          rw [hv]; rfl
        rcases (hiss g).1 (by simpa [prefState] using this) with hfalse | hc
        · simp [lookupA] at hfalse
        · exact hpos hc

theorem genreWeight_eq_ite (catalog : List Movie)
    (hnd : ∀ m ∈ catalog, m.genres.Nodup) (g : String) (p : Nat × ℚ) :
    genreWeight catalog g p
      = if (match lookupMovie catalog p.1 with
            | some m => decide (g ∈ m.genres)
            | none => false) then 1 else 0 := by
  cases hm : lookupMovie catalog p.1 with
  | none => simp [genreWeight, hm]
  | some m =>
      have hmem : m ∈ catalog := List.mem_of_find?_eq_some hm
      by_cases hg : g ∈ m.genres
      · simp [genreWeight, hm, hg, List.count_eq_one_of_mem (hnd m hmem) hg]
      · simp [genreWeight, hm, hg, List.count_eq_zero_of_not_mem hg]

theorem genreRatingCount_eq_length (catalog : List Movie)
    (hnd : ∀ m ∈ catalog, m.genres.Nodup) (g : String) (ratings : List (Nat × ℚ)) :
    genreRatingCount catalog g ratings = (ratedWith catalog g ratings).length := by
  induction ratings with
  | nil => rfl
  | cons p rest ih =>
      have hw := genreWeight_eq_ite catalog hnd g p
      by_cases hp : (match lookupMovie catalog p.1 with
          | some m => decide (g ∈ m.genres)
          | none => false) = true
      · simp only [genreRatingCount, List.map_cons, List.sum_cons] at *
        rw [hw, if_pos hp]
        simp [ratedWith, List.filter_cons, hp, ih]
        omega
      · simp only [genreRatingCount, List.map_cons, List.sum_cons] at *
        rw [hw, if_neg hp]
        simp [ratedWith, List.filter_cons, hp, ih]

theorem genreRatingSum_eq_sum (catalog : List Movie)
    (hnd : ∀ m ∈ catalog, m.genres.Nodup) (g : String) (ratings : List (Nat × ℚ)) :
    genreRatingSum catalog g ratings
      = ((ratedWith catalog g ratings).map Prod.snd).sum := by
  induction ratings with
  | nil => rfl
  | cons p rest ih =>
      have hw := genreWeight_eq_ite catalog hnd g p
      by_cases hp : (match lookupMovie catalog p.1 with
          | some m => decide (g ∈ m.genres)
          | none => false) = true
      · simp only [genreRatingSum, List.map_cons, List.sum_cons] at *
        rw [hw, if_pos hp]
        simp [ratedWith, List.filter_cons, hp, ih]
      · simp only [genreRatingSum, List.map_cons, List.sum_cons] at *
        rw [hw, if_neg hp]
        simp [ratedWith, List.filter_cons, hp, ih]

/-- C1: when every catalog movie lists each genre once,
`calculate_genre_preferences` maps a genre to the arithmetic mean of
the ratings of the rated catalog movies carrying it (a multi-genre
movie contributing its rating to each of its genres), omits genres with
no contribution, silently ignores ratings whose movie id is not in the
catalog (they are dropped by `ratedWith`), and sends the empty ratings
map to the empty preferences map. -/
theorem claim_C1 (catalog : List Movie) (ratings : List (Nat × ℚ))
    (hnd : ∀ m ∈ catalog, m.genres.Nodup) :
    (∀ g : String,
      lookupA (calculate_genre_preferences catalog ratings) g
        = if (ratedWith catalog g ratings).length = 0 then none
          else some ((((ratedWith catalog g ratings).map Prod.snd).sum)
            / ((ratedWith catalog g ratings).length : ℚ)))
    ∧ calculate_genre_preferences catalog [] = [] := by
  refine ⟨fun g => ?_, rfl⟩
  rw [calculate_genre_preferences_lookup, genreRatingCount_eq_length catalog hnd,
    genreRatingSum_eq_sum catalog hnd]
  by_cases h : (ratedWith catalog g ratings).length = 0
  · rw [if_neg (show ¬ 0 < (ratedWith catalog g ratings).length by omega), if_pos h]
  · rw [if_pos (show 0 < (ratedWith catalog g ratings).length by omega), if_neg h]

/-- Witness for C1: two rated movies share the genre `"Action"`, whose
preference is the mean `(8 + 6) / 2 = 7`. -/
theorem claim_C1_witness :
    lookupA (calculate_genre_preferences catW [(1, 8), (2, 6)]) "Action" = some 7 := by
  have h := (claim_C1 catW [(1, 8), (2, 6)] (by decide)).1 "Action"
  have hr : ratedWith catW "Action" [(1, 8), (2, 6)] = [(1, 8), (2, 6)] := by decide
  rw [h, hr]
  norm_num

/-! ## Claim about the weighted random pick (§4.4 mode 3) -/

theorem byRatingDesc_trans : ∀ a b c : Movie,
    byRatingDesc a b → byRatingDesc b c → byRatingDesc a c := by
  intro a b c h1 h2
  simp only [byRatingDesc, decide_eq_true_eq] at h1 h2 ⊢
  exact le_trans h2 h1

theorem byRatingDesc_total : ∀ a b : Movie, byRatingDesc a b || byRatingDesc b a := by
  intro a b
  simp only [byRatingDesc, Bool.or_eq_true, decide_eq_true_eq]
  exact le_total (ratingKey b) (ratingKey a)

/-- Membership in a top-10-by-rating slice of a genre pool implies
catalog membership and carrying the genre. -/
theorem mem_top10ByRating {catalog : List Movie} {g : String} {m : Movie}
    (h : m ∈ top10ByRating (genreMovies catalog g)) : m ∈ catalog ∧ g ∈ m.genres := by
  have h1 : m ∈ (genreMovies catalog g).mergeSort byRatingDesc := List.mem_of_mem_take h
  have h2 : m ∈ genreMovies catalog g := List.mem_mergeSort.1 h1
  have h3 := List.mem_filter.1 h2
  exact ⟨h3.1, by simpa using h3.2⟩

/-- In a list sorted non-increasingly by rating, an element of the
first `n` entries is outranked (strictly) by fewer than `n` elements. -/
theorem rank_of_mem_take_sorted :
    ∀ (S : List Movie), S.Pairwise (fun a b => ratingKey b ≤ ratingKey a) →
    ∀ (n : ℕ) (m : Movie), m ∈ S.take n →
    (S.filter (fun x => decide (ratingKey m < ratingKey x))).length < n := by
  intro S
  induction S with
  | nil =>
      intro _ n m hm
      simp at hm
  | cons a rest ih =>
      intro hpw n m hm
      have ha : ∀ b ∈ rest, ratingKey b ≤ ratingKey a :=
        fun b hb => List.rel_of_pairwise_cons hpw hb
      have hrest := List.Pairwise.of_cons hpw
      cases n with
      | zero => simp at hm
      | succ n' =>
          rw [List.take_succ_cons] at hm
          rcases List.mem_cons.1 hm with rfl | hm'
          · have hnil : rest.filter (fun x => decide (ratingKey m < ratingKey x)) = [] := by
              refine List.filter_eq_nil_iff.mpr fun b hb => ?_
              simpa using not_lt.2 (ha b hb)
            rw [List.filter_cons]
            simp [hnil, lt_irrefl]
          · have hlt := ih hrest n' m hm'
            rw [List.filter_cons]
            by_cases hPa : ratingKey m < ratingKey a
            · simp only [hPa, decide_True, if_pos]
              simpa using Nat.succ_lt_succ hlt
            · simp only [hPa, decide_False, Bool.false_eq_true, if_false]
              omega

/-- Every genre of a computed preference map is carried by at least one
catalog movie (preferences are derived from rated catalog movies). -/
theorem preference_genre_carried (catalog : List Movie) (ratings : List (Nat × ℚ))
    {g : String} (h : g ∈ preferredGenres (calculate_genre_preferences catalog ratings)) :
    ∃ m ∈ catalog, g ∈ m.genres := by
  rcases List.mem_map.1 h with ⟨p, hp, rfl⟩
  have hpmem : p ∈ calculate_genre_preferences catalog ratings := List.mem_of_mem_filter hp
  have hsome := isSome_lookupA_of_mem hpmem
  rw [calculate_genre_preferences_lookup] at hsome
  by_cases hc : 0 < genreRatingCount catalog p.1 ratings
  · have hex : ∃ q ∈ ratings, 0 < genreWeight catalog p.1 q := by
      by_contra hno
      push_neg at hno
      have hz : genreRatingCount catalog p.1 ratings = 0 := by
        refine List.sum_eq_zero fun x hx => ?_
        rcases List.mem_map.1 hx with ⟨q, hq, rfl⟩
        have := hno q hq
        omega
      omega
    rcases hex with ⟨q, hq, hw⟩
    cases hm : lookupMovie catalog q.1 with
    | none => rw [genreWeight, hm] at hw; cases hw
    | some m =>
        rw [genreWeight, hm] at hw
        exact ⟨m, List.mem_of_find?_eq_some hm, List.count_pos_iff.1 hw⟩
  · rw [if_neg hc] at hsome
    cases hsome

/-- C7: when some genre preference exceeds 6 and the preferences were
computed from a ratings map, every possible `get_random_movie` outcome
is a catalog movie that carries one of the preferred genres and is
outranked by at most 9 catalog movies of that genre — i.e. it lies in
the top-10-by-rating slice of the chosen preferred genre. -/
theorem claim_C7 (catalog : List Movie) (ratings : List (Nat × ℚ)) (res : Option Movie)
    (hpref : preferredGenres (calculate_genre_preferences catalog ratings) ≠ [])
    (hout : RandomPickOutcome catalog (calculate_genre_preferences catalog ratings) res) :
    ∃ m, res = some m ∧ m ∈ catalog
      ∧ ∃ g ∈ preferredGenres (calculate_genre_preferences catalog ratings),
          g ∈ m.genres
          ∧ ((genreMovies catalog g).filter
              (fun x => decide (ratingKey m < ratingKey x))).length ≤ 9 := by
  cases hout with
  | noPref h => exact absurd h hpref
  | emptyPool g hg hpool =>
      exfalso
      rcases preference_genre_carried catalog ratings hg with ⟨m, hm, hgm⟩
      have : m ∈ genreMovies catalog g := List.mem_filter.2 ⟨hm, by simpa using hgm⟩
      rw [hpool] at this
      cases this
  | pick g m hg hm =>
      have hmem := mem_top10ByRating hm
      have hpw : ((genreMovies catalog g).mergeSort byRatingDesc).Pairwise
          (fun a b => ratingKey b ≤ ratingKey a) :=
        (List.sorted_mergeSort byRatingDesc_trans byRatingDesc_total _).imp
          (fun h => by simpa [byRatingDesc] using h)
      have hrank := rank_of_mem_take_sorted _ hpw 10 m hm
      have hlen : (((genreMovies catalog g).mergeSort byRatingDesc).filter
            (fun x => decide (ratingKey m < ratingKey x))).length
          = ((genreMovies catalog g).filter
            (fun x => decide (ratingKey m < ratingKey x))).length :=
        ((List.mergeSort_perm _ _).filter _).length_eq
      refine ⟨m, rfl, hmem.1, g, hg, hmem.2, ?_⟩
      omega

/-- Witness for C7: rating the Action movie 8 makes `"Action"`
preferred; picking `mAction` from its top-10 slice is a valid outcome
and satisfies the conclusion. -/
theorem claim_C7_witness :
    ∃ m, (some mAction : Option Movie) = some m ∧ m ∈ catW
      ∧ ∃ g ∈ preferredGenres (calculate_genre_preferences catW [(1, 8)]),
          g ∈ m.genres
          ∧ ((genreMovies catW g).filter
              (fun x => decide (ratingKey m < ratingKey x))).length ≤ 9 := by
  have hprefs : calculate_genre_preferences catW [(1, 8)] = [("Action", 8)] := by
    simp [calculate_genre_preferences, prefState, prefFold, lookupMovie, catW,
      mAction, mDrama, addGenre, insertA, lookupA, List.find?]
  have hpg : preferredGenres (calculate_genre_preferences catW [(1, 8)]) = ["Action"] := by
    rw [hprefs]
    decide
  have hsorted : List.Pairwise (fun a b => byRatingDesc a b) [mAction, mDrama] := by
    simp only [byRatingDesc, ratingKey, mAction, mDrama, List.pairwise_cons]
    refine ⟨fun b hb => ?_, by simp⟩
    rcases List.mem_singleton.1 hb with rfl
    simp only [decide_eq_true_eq]
    exact WithBot.coe_le_coe.2 (by norm_num)
  have hpool : genreMovies catW "Action" = [mAction, mDrama] := by decide
  have htop : mAction ∈ top10ByRating (genreMovies catW "Action") := by
    rw [top10ByRating, hpool, List.mergeSort_of_sorted hsorted]
    decide
  exact claim_C7 catW [(1, 8)] (some mAction) (by rw [hpg]; decide)
    (RandomPickOutcome.pick "Action" mAction (by rw [hpg]; decide) htop)

/-! ## Claim about random-pick persistence (§4.4 state machine) -/

theorem s8a_prefs : s8a.genre_preferences = [("Action", 8)] := by
  simp [s8a, step, initState, calculate_genre_preferences, prefState, prefFold,
    lookupMovie, catW, mAction, mDrama, addGenre, insertA, lookupA, List.find?]

theorem s8a_outcome : RandomPickOutcome catW s8a.genre_preferences (some mAction) := by
  have hpg : preferredGenres s8a.genre_preferences = ["Action"] := by
    rw [s8a_prefs]; decide
  have hsorted : List.Pairwise (fun a b => byRatingDesc a b) [mAction, mDrama] := by
    simp only [byRatingDesc, ratingKey, mAction, mDrama, List.pairwise_cons]
    refine ⟨fun b hb => ?_, by simp⟩
    rcases List.mem_singleton.1 hb with rfl
    simp only [decide_eq_true_eq]
    exact WithBot.coe_le_coe.2 (by norm_num)
  have hpool : genreMovies catW "Action" = [mAction, mDrama] := by decide
  refine RandomPickOutcome.pick "Action" mAction (by rw [hpg]; decide) ?_
  rw [top10ByRating, hpool, List.mergeSort_of_sorted hsorted]
  decide

theorem s8b_random : s8b.random_movie_id = some 1 := by
  have hne : ¬ (s8a.genre_preferences = [] ∧ s8a.new_user = true) := by
    rw [s8a_prefs]; simp
  have hrm : s8a.random_movie_id = none := rfl
  show (viewRandomUpdate catW s8a (some mAction)).random_movie_id = some 1
  rw [viewRandomUpdate, if_neg hne, hrm]
  rfl

theorem s8b_reachable : Reachable catW s8b :=
  Reachable.next (Reachable.next (Reachable.next Reachable.init rfl) rfl)
    ⟨rfl, s8a_outcome⟩

/-- C8 fails as stated: from the reachable state `s8b`, whose pick is
movie 1, the "Back to Home" button on the Random page (line 293) — an
event that is not a request for another recommendation — also resets
the pick to the no-pick state (and so does logout, line 369). -/
theorem claim_C8_counterexample :
    Reachable catW s8b
    ∧ s8b.random_movie_id = some 1
    ∧ ValidEvent catW s8b Event.backHomeRandom
    ∧ (step catW s8b Event.backHomeRandom).random_movie_id = none :=
  ⟨s8b_reachable, s8b_random, rfl, rfl⟩

/-- C8, amended: once a pick is made, every view of the Random page
shows the same movie id (the stored id is only re-rolled if it has
dropped out of the catalog, which cannot happen for a pick taken from
the catalog); submitting a rating leaves the pick unchanged; the
transitions back to the no-pick state are the explicit request for
another recommendation — after which the next view draws a fresh pick
from the preferred-genre pool — and additionally the "Back to Home"
button and logout; no other event clears the pick. -/
theorem claim_C8_amended (catalog : List Movie) (s : SessionState) :
    (∀ (pick : Option Movie) (id : Nat), s.random_movie_id = some id →
        (lookupMovie catalog id).isSome = true →
        (step catalog s (.viewRandom pick)).random_movie_id = some id)
    ∧ (∀ (id : Nat) (r : ℚ),
        (step catalog s (.submitRandomRating id r)).random_movie_id = s.random_movie_id)
    ∧ (step catalog s .anotherRecommendation).random_movie_id = none
    ∧ (∀ m : Movie, s.random_movie_id = none → s.genre_preferences ≠ [] →
        RandomPickOutcome catalog s.genre_preferences (some m) →
        (step catalog s (.viewRandom (some m))).random_movie_id = some m.movie_id
        ∧ ∃ g ∈ preferredGenres s.genre_preferences,
            m ∈ top10ByRating (genreMovies catalog g)) := by
  refine ⟨?_, fun id r => rfl, rfl, ?_⟩
  · intro pick id hid hfound
    show (viewRandomUpdate catalog s pick).random_movie_id = some id
    unfold viewRandomUpdate
    split
    · exact hid
    · rw [hid]
      simp [hfound, hid]
  · intro m hnone hpref hout
    constructor
    · show (viewRandomUpdate catalog s (some m)).random_movie_id = some m.movie_id
      unfold viewRandomUpdate
      split
      · rename_i hcond
        exact absurd hcond.1 hpref
      · rw [hnone]
    · cases hout with
      | pick g m hg hm => exact ⟨g, hg, hm⟩

/-- Witness for the amended C8 at the concrete state `s8b`. -/
theorem claim_C8_amended_witness :
    (step catW s8b (.viewRandom none)).random_movie_id = some 1
    ∧ (step catW s8b (.submitRandomRating 1 9)).random_movie_id = s8b.random_movie_id
    ∧ (step catW s8b .anotherRecommendation).random_movie_id = none :=
  ⟨(claim_C8_amended catW s8b).1 none 1 s8b_random (by decide),
   (claim_C8_amended catW s8b).2.1 1 9,
   (claim_C8_amended catW s8b).2.2.1⟩

/-! ## Claim about the ratings export/import round trip (§6) -/

theorem insertA_append_of_lookup_none {α β : Type} [DecidableEq α]
    {acc : List (α × β)} {k : α} (v : β) (h : lookupA acc k = none) :
    insertA acc k v = acc ++ [(k, v)] := by
  induction acc with
  | nil => rfl
  | cons q rest ih =>
      by_cases hq : q.1 = k
      · rw [lookupA, if_pos hq] at h
        cases h
      · rw [lookupA, if_neg hq] at h
        rw [insertA, if_neg hq, ih h]
        rfl

theorem lookupA_append {α β : Type} [DecidableEq α] (l₁ l₂ : List (α × β)) (k : α) :
    lookupA (l₁ ++ l₂) k
      = match lookupA l₁ k with
        | some v => some v
        | none => lookupA l₂ k := by
  induction l₁ with
  | nil => simp [lookupA]
  | cons q rest ih =>
      by_cases hq : q.1 = k
      · simp [lookupA, hq]
      · simp [lookupA, hq, ih]

/-- Building a Python dict by successive assignments of pairwise
distinct fresh keys reproduces the pair list itself. -/
theorem foldl_insertA_of_fresh {α β : Type} [DecidableEq α] :
    ∀ (l : List (α × β)) (acc : List (α × β)), (l.map Prod.fst).Nodup →
    (∀ p ∈ l, lookupA acc p.1 = none) →
    l.foldl (fun acc p => insertA acc p.1 p.2) acc = acc ++ l := by
  intro l
  induction l with
  | nil => intro acc _ _; simp
  | cons p rest ih =>
      intro acc hnd hfresh
      rw [List.foldl_cons,
        insertA_append_of_lookup_none p.2 (hfresh p (List.mem_cons_self p rest))]
      have hkey : p.1 ∉ rest.map Prod.fst := by
        rw [List.map_cons] at hnd
        exact (List.nodup_cons.1 hnd).1
      have hfresh' : ∀ q ∈ rest, lookupA (acc ++ [(p.1, p.2)]) q.1 = none := by
        intro q hq
        rw [lookupA_append, hfresh q (List.mem_cons_of_mem p hq)]
        have hne : ¬ p.1 = q.1 := fun he =>
          hkey (he ▸ List.mem_map_of_mem Prod.fst hq)
        simp [lookupA, hne]
      have hnd' : (rest.map Prod.fst).Nodup := by
        rw [List.map_cons] at hnd
        exact (List.nodup_cons.1 hnd).2
      rw [ih (acc ++ [(p.1, p.2)]) hnd' hfresh']
      simp

/-- A catalog movie whose title is unique is the one a title lookup
returns. -/
theorem lookupByTitle_eq_of_unique {catalog : List Movie} {m : Movie}
    (hm : m ∈ catalog) (huniq : ∀ m' ∈ catalog, m'.title = m.title → m' = m) :
    lookupByTitle catalog m.title = some m := by
  cases hfind : catalog.find? (fun x => x.title == m.title) with
  | none =>
      exfalso
      have := List.find?_eq_none.1 hfind m hm
      simp at this
  | some x =>
      have hx : x ∈ catalog := List.mem_of_find?_eq_some hfind
      have hpred := List.find?_some hfind
      have hteq : x.title = m.title := by simpa using hpred
      rw [show lookupByTitle catalog m.title
        = catalog.find? (fun x => x.title == m.title) from rfl, hfind,
        huniq x hx hteq]

/-- Exporting rows and resolving their titles back recovers the
original `(movie_id, rating)` sequence, entry by entry, when every id
resolves and every rated title is catalog-unique. -/
theorem roundtrip_rows (catalog : List Movie) :
    ∀ ratings : List (Nat × ℚ),
    (∀ p ∈ ratings, ∃ m, lookupMovie catalog p.1 = some m
      ∧ ∀ m' ∈ catalog, m'.title = m.title → m' = m) →
    (create_csv_data catalog ratings).filterMap
      (fun row => (lookupByTitle catalog row.1).map (fun m => (m.movie_id, row.2)))
      = ratings := by
  intro ratings
  induction ratings with
  | nil => intro _; rfl
  | cons p rest ih =>
      intro hres
      rcases hres p (List.mem_cons_self p rest) with ⟨m, hm, huniq⟩
      have hmmem : m ∈ catalog := List.mem_of_find?_eq_some hm
      have hid : m.movie_id = p.1 := by
        have := List.find?_some hm
        simpa using this
      have hcsv : create_csv_data catalog (p :: rest)
          = (m.title, p.2) :: create_csv_data catalog rest := by
        simp [create_csv_data, List.filterMap_cons, hm]
      rw [hcsv, List.filterMap_cons]
      have hlook : lookupByTitle catalog (m.title, p.2).1 = some m :=
        lookupByTitle_eq_of_unique hmmem huniq
      rw [show create_csv_data catalog rest
          = (create_csv_data catalog rest) from rfl]
      simp only [hlook, Option.map_some']
      rw [hid, ih (fun q hq => hres q (List.mem_cons_of_mem p hq))]

/-- C10: exporting a ratings map whose movie ids all resolve in the
catalog and whose rated movies carry catalog-unique titles, then
importing the produced rows, reproduces the original ratings map
exactly (same ids, same ratings, same order). -/
theorem claim_C10 (catalog : List Movie) (ratings : List (Nat × ℚ))
    (hkeys : (ratings.map Prod.fst).Nodup)
    (hres : ∀ p ∈ ratings, ∃ m, lookupMovie catalog p.1 = some m
      ∧ ∀ m' ∈ catalog, m'.title = m.title → m' = m) :
    load_user_ratings_from_csv (create_csv_data catalog ratings) catalog = ratings := by
  rw [load_user_ratings_from_csv, roundtrip_rows catalog ratings hres,
    foldl_insertA_of_fresh ratings [] hkeys (fun p _ => rfl)]
  simp

/-- Witness for C10: a two-movie ratings map round-trips through the
CSV rows. -/
theorem claim_C10_witness :
    load_user_ratings_from_csv (create_csv_data catW [(1, 8), (2, 6)]) catW
      = [(1, 8), (2, 6)] := by
  refine claim_C10 catW [(1, 8), (2, 6)] (by decide) ?_
  intro p hp
  rcases List.mem_cons.1 hp with rfl | hp'
  · exact ⟨mAction, by decide, by decide⟩
  · rcases List.mem_singleton.1 hp' with rfl
    exact ⟨mDrama, by decide, by decide⟩

end CineMatch
